import Mathlib

/-!
Verification of the dindenault authentication and authorization gates
(`navigaid` module and the `dindenault` package helpers), embedded shallowly:

* `Claims`, `AuthInfo` and the auth context (`SetAuth` / `GetAuth`,
  navigaid/context.go);
* the Connect interceptors (`ConnectInterceptor`, `extractAccessToken`,
  `RequirePermission`, `CheckPermissionConnect`, navigaid auth code);
* the token refresh cache (`TokenRefresher.GetAccessToken`);
* the permission helpers (`checkUserPermission`, `AuthorizeWithDetails`,
  cors.go) and the interceptor chain builder (`NewConnectHandler`).

Go contexts are modelled as a list of value entries, with the most recent
entry first, mirroring the parent chain of `context.WithValue`; maps are
modelled as association lists; `time.Time` instants are modelled as `Int`
seconds; errors are modelled as `Option String` (none is the nil error),
matching the Go multi-value returns shape for shape.
-/

namespace Dindenault

/-- Association-list lookup of the first binding for a key, modelling a Go
map read (`m[k]`). -/
def assocLookup (key : String) : List (String × α) → Option α
  | [] => none
  | (k, v) :: rest => if k = key then some v else assocLookup key rest

/-- Association-list update modelling a Go map write (`m[k] = v`): the first
binding for the key is replaced in place, otherwise a new binding is
appended. -/
def assocSet (key : String) (val : α) : List (String × α) → List (String × α)
  | [] => [(key, val)]
  | (k, v) :: rest =>
      if k = key then (key, val) :: rest else (k, v) :: assocSet key val rest

/-- Userinfo of navigaid Claims: display-only user fields. -/
structure Userinfo where
  GivenName : String
  FamilyName : String
  Email : String
deriving DecidableEq, Repr

/-- PermissionsClaim of navigaid Claims: organization-scope permission list
and the per-unit permission map (modelled as an association list). -/
structure PermissionsClaim where
  Org : List String
  Units : List (String × List String)
deriving DecidableEq, Repr

/-- Claims derived from a verified token (navigaid.Claims). -/
structure Claims where
  Subject : String
  Org : String
  Groups : List String
  Userinfo : Userinfo
  TokenType : String
  Permissions : PermissionsClaim
deriving DecidableEq, Repr

/-- The zero value of `Userinfo` (Go zero struct). -/
def emptyUserinfo : Userinfo := ⟨"", "", ""⟩

/-- The zero value of `Claims` (Go zero struct). -/
def emptyClaims : Claims := ⟨"", "", [], emptyUserinfo, "", ⟨[], []⟩⟩

/-- Modelled from the spec: `Claims.HasPermissionsInOrganisation` lives in
the navigaid claims source file, which is not part of the corpus; per
section 4.3 of the spec, the organization-scope check is true exactly when
the permission is a member of the organization permission set. -/
def Claims.HasPermissionsInOrganisation (c : Claims) (permission : String) : Bool :=
  c.Permissions.Org.contains permission

/-- Modelled from the spec: `Claims.HasPermissionsInUnit` lives in the
navigaid claims source file, which is not part of the corpus; per section
4.3 of the spec, the unit-scope check is true exactly when the permission is
a member of the unit entry of the unit permission map, and false (not an
error) when the unit is absent. -/
def Claims.HasPermissionsInUnit (c : Claims) (unit permission : String) : Bool :=
  match assocLookup unit c.Permissions.Units with
  | some perms => perms.contains permission
  | none => false

/-- AuthInfo holds information about the authenticated user
(navigaid/context.go). -/
structure AuthInfo where
  AccessToken : String
  Claims : Claims
deriving DecidableEq, Repr

/-- The zero value of `AuthInfo` (the Go `AuthInfo{}` returned on the error
paths of `GetAuth`). -/
def emptyAuthInfo : AuthInfo := ⟨"", emptyClaims⟩

/-- The value stored under the auth context key: the `ai` struct of
navigaid/context.go, pairing an `AuthInfo` with a recorded error. -/
structure Ai where
  Ac : AuthInfo
  Err : Option String
deriving DecidableEq, Repr

/-- A Go context, reduced to the auth entries it carries: `context.WithValue`
chains a new entry in front of its parent, and `Value` finds the most recent
entry, so the context is a list with the newest entry first. The empty list
is a context on which `SetAuth` was never called. -/
abbrev Ctx := List Ai

/-- The empty context, `context.Background()`. -/
def emptyCtx : Ctx := []

/-- SetAuth adds authentication information to the context
(navigaid/context.go): it wraps the parent context with a new `ai` entry
and returns the new context. -/
def SetAuth (ctx : Ctx) (auth : AuthInfo) (err : Option String) : Ctx :=
  (⟨auth, err⟩ : Ai) :: ctx

/-- GetAuth retrieves authentication information from the context
(navigaid/context.go), returned Go style as a pair of `AuthInfo` and error:
no entry yields the no-authentication error, a recorded error is returned
with an empty `AuthInfo`, and otherwise the stored `AuthInfo` is returned
with a nil error. -/
def GetAuth (ctx : Ctx) : AuthInfo × Option String :=
  match ctx with
  | [] => (emptyAuthInfo, some "no authentication information in context")
  | auth :: _ =>
      match auth.Err with
      | some e => (emptyAuthInfo, some e)
      | none => (auth.Ac, none)

/-- Connect error codes relevant to the authentication and permission
gates (connect.CodeUnauthenticated and connect.CodePermissionDenied). -/
inductive Code where
  | unauthenticated
  | permissionDenied
deriving DecidableEq, Repr

/-- A connect error as built by `connect.NewError`: a code and a message. -/
structure ConnectError where
  code : Code
  message : String
deriving DecidableEq, Repr

/-- An incoming Connect request, reduced to its header map
(`req.Header()`). -/
structure Request where
  header : List (String × String)
deriving DecidableEq, Repr

/-- Header lookup as performed by `req.Header().Get(name)`: the empty string
when the header is absent. -/
def headerGet (req : Request) (name : String) : String :=
  (assocLookup name req.header).getD ""

/-- Go strings.HasPrefix specialized to the bearer marker: true when the
string starts with the seven characters of the marker, implemented over the
character list. -/
def hasBearer (s : String) : Bool :=
  "Bearer ".toList.isPrefixOf s.toList

/-- Go strings.TrimPrefix for the bearer marker, on the branch where the
marker is present: drops its seven characters. -/
def trimBearer (s : String) : String :=
  String.mk (s.toList.drop 7)

/-- extractAccessToken tries to extract the access token from various
headers (navigaid auth code): first the standard Authorization header, whose
value is used with the Bearer marker stripped when it is non-empty and
starts with it, then the legacy x-imid-token header when non-empty,
otherwise the empty string. -/
def extractAccessToken (req : Request) : String :=
  let authHeader := headerGet req "Authorization"
  if authHeader ≠ "" ∧ hasBearer authHeader = true then
    trimBearer authHeader
  else
    let imidToken := headerGet req "x-imid-token"
    if imidToken ≠ "" then imidToken else ""

/-- The outcome of running a unary interceptor: the value or error returned
to the caller, together with the context in effect when the interceptor
terminated (the context handed to the next handler, or the unchanged
incoming context when the call was rejected before any handler ran). -/
structure InterceptOutcome (R : Type) where
  result : Except ConnectError R
  finalCtx : Ctx

/-- ConnectInterceptor (navigaid auth code): extracts the access token,
rejects with CodeUnauthenticated when it is missing or fails validation, and
otherwise stores the `AuthInfo` in the context with `SetAuth` and calls the
next handler with the authenticated context. The token validator
(`jwks.Validate`) and the next handler are passed in as functions. -/
def ConnectInterceptor (validate : String → Except String Claims)
    (next : Ctx → Request → Except ConnectError R)
    (ctx : Ctx) (req : Request) : InterceptOutcome R :=
  let accessToken := extractAccessToken req
  if accessToken = "" then
    ⟨.error ⟨.unauthenticated, "authentication required"⟩, ctx⟩
  else
    match validate accessToken with
    | .error _ => ⟨.error ⟨.unauthenticated, "invalid token"⟩, ctx⟩
    | .ok claims =>
        let newCtx := SetAuth ctx ⟨accessToken, claims⟩ none
        ⟨next newCtx req, newCtx⟩

/-- CheckPermissionConnect (navigaid auth code): returns the
authentication-required error when `GetAuth` fails, the missing-permission
error when the organization-scope check fails, and nil otherwise. -/
def CheckPermissionConnect (ctx : Ctx) (permission : String) : Option String :=
  let lookedUp := GetAuth ctx
  if lookedUp.2.isSome then
    some "authentication required"
  else if ¬ lookedUp.1.Claims.HasPermissionsInOrganisation permission then
    some ("missing required permission: " ++ permission)
  else
    none

/-- CheckUnitPermissionConnect (navigaid auth code): like
`CheckPermissionConnect` but with the unit-scope check. -/
def CheckUnitPermissionConnect (ctx : Ctx) (unit permission : String) : Option String :=
  let lookedUp := GetAuth ctx
  if lookedUp.2.isSome then
    some "authentication required"
  else if ¬ lookedUp.1.Claims.HasPermissionsInUnit unit permission then
    some ("missing required permission for unit: " ++ permission)
  else
    none

/-- RequirePermission (navigaid auth code): an interceptor that rejects with
CodePermissionDenied whenever `CheckPermissionConnect` reports any error,
and otherwise calls the next handler with the unchanged context. -/
def RequirePermission (permission : String)
    (next : Ctx → Request → Except ConnectError R)
    (ctx : Ctx) (req : Request) : Except ConnectError R :=
  match CheckPermissionConnect ctx permission with
  | some _ => .error ⟨.permissionDenied, "missing required permission: " ++ permission⟩
  | none => next ctx req

/-- RequireUnitPermission (navigaid auth code): an interceptor that rejects
with CodePermissionDenied whenever `CheckUnitPermissionConnect` reports any
error, and otherwise calls the next handler with the unchanged context. -/
def RequireUnitPermission (unit permission : String)
    (next : Ctx → Request → Except ConnectError R)
    (ctx : Ctx) (req : Request) : Except ConnectError R :=
  match CheckUnitPermissionConnect ctx unit permission with
  | some _ =>
      .error ⟨.permissionDenied,
        "missing required permission for unit: " ++ unit ++ "/" ++ permission⟩
  | none => next ctx req

/-- A cached access token with its absolute expiry instant (seconds), the
cachedToken struct of the token refresher. -/
structure CachedToken where
  accessToken : String
  expiresAt : Int
deriving DecidableEq, Repr

/-- The mutable state of a TokenRefresher: its token cache, a map from
identity token to cached access token. -/
structure TokenRefresherState where
  tokenCache : List (String × CachedToken)
deriving DecidableEq, Repr

/-- The response of the token issuance service (`NewAccessToken`): the
minted access token and its lifetime in seconds. -/
structure TokenResponse where
  AccessToken : String
  ExpiresIn : Int
deriving DecidableEq, Repr

/-- TokenRefresher.GetAccessToken (navigaid token refresher): returns the
cached access token when the cache holds an entry for the identity token
that is still valid with a 30-second buffer; otherwise calls the issuance
service, caches the new token with expiry now plus its lifetime and returns
it, or propagates the issuance error with an empty token and an unchanged
cache. The result carries the Go-style value and error pair, the state
after the call, and the number of issuance calls performed. -/
def GetAccessToken (newAccessToken : String → Except String TokenResponse)
    (now : Int) (st : TokenRefresherState) (navigaIDToken : String) :
    (String × Option String) × TokenRefresherState × Nat :=
  let refresh :
      (String × Option String) × TokenRefresherState × Nat :=
    match newAccessToken navigaIDToken with
    | .error e => (("", some e), st, 1)
    | .ok tokenResp =>
        ((tokenResp.AccessToken, none),
         ⟨assocSet navigaIDToken
            ⟨tokenResp.AccessToken, now + tokenResp.ExpiresIn⟩ st.tokenCache⟩,
         1)
  match assocLookup navigaIDToken st.tokenCache with
  | some cached =>
      if now + 30 < cached.expiresAt then
        ((cached.accessToken, none), st, 0)
      else
        refresh
  | none => refresh

/-- AuthResult (cors.go): authentication and authorization details returned
to callers of `AuthorizeWithDetails`. -/
structure AuthResult where
  Organization : String
  GivenName : String
  FamilyName : String
  Email : String
  UserID : String
  Permissions : List String
  Groups : List String
deriving DecidableEq, Repr

/-- checkUserPermission (cors.go): true when no permission is specified,
when the organization-scope check succeeds, or when the permission is held
in some unit of the unit permission map. -/
def checkUserPermission (claims : Claims) (permission : String) : Bool :=
  if permission = "" then
    true
  else if claims.HasPermissionsInOrganisation permission then
    true
  else
    claims.Permissions.Units.any
      (fun unitEntry => claims.HasPermissionsInUnit unitEntry.1 permission)

/-- AuthorizeWithDetails (cors.go): reads the auth context, rejecting with
CodeUnauthenticated when `GetAuth` fails and with CodePermissionDenied when
`checkUserPermission` fails, and otherwise returns the `AuthResult` built
from the claims, with the organization permissions and the flattened unit
permissions concatenated. -/
def AuthorizeWithDetails (ctx : Ctx) (permission : String) :
    Except ConnectError AuthResult :=
  let lookedUp := GetAuth ctx
  match lookedUp.2 with
  | some e =>
      .error ⟨.unauthenticated, "failed to get authorization: " ++ e⟩
  | none =>
      let auth := lookedUp.1
      if ¬ checkUserPermission auth.Claims permission then
        .error ⟨.permissionDenied, "missing required permission: " ++ permission⟩
      else
        .ok
          { Organization := auth.Claims.Org
            GivenName := auth.Claims.Userinfo.GivenName
            FamilyName := auth.Claims.Userinfo.FamilyName
            Email := auth.Claims.Userinfo.Email
            UserID := auth.Claims.Subject
            Permissions :=
              auth.Claims.Permissions.Org
                ++ auth.Claims.Permissions.Units.flatMap (fun unitEntry => unitEntry.2)
            Groups := auth.Claims.Groups }

/-- HasPermission (cors.go): false when no authentication information is
available, otherwise the result of `checkUserPermission`. -/
def HasPermission (ctx : Ctx) (permission : String) : Bool :=
  let lookedUp := GetAuth ctx
  if lookedUp.2.isSome then
    false
  else
    checkUserPermission lookedUp.1.Claims permission

/-- The interceptors that `NewConnectHandler` can place in a chain,
identified by constructor and parameters. -/
inductive Interceptor where
  | connectAuth
  | requirePerm (permission : String)
  | requireUnitPerm (unit permission : String)
deriving DecidableEq, Repr

/-- ConnectOptions: the options accumulated by `NewConnectHandler` from its
functional options. -/
structure ConnectOptions where
  RequiredPermissions : List String
  UnitPermissions : List (String × List String)
deriving DecidableEq, Repr

/-- A functional option for `NewConnectHandler`. -/
abbrev ConnectOption := ConnectOptions → ConnectOptions

/-- NewConnectHandler (app options code): applies the options to an empty
`ConnectOptions`, then builds the interceptor list passed to
WithInterceptors by appending, in program order, the authentication
interceptor, one `RequirePermission` interceptor per required permission,
and one `RequireUnitPermission` interceptor per unit permission entry. -/
def NewConnectHandler (options : List ConnectOption) : List Interceptor :=
  let opts := options.foldl (fun acc opt => opt acc) ⟨[], []⟩
  let withAuth := ([] : List Interceptor) ++ [Interceptor.connectAuth]
  let withPerms :=
    opts.RequiredPermissions.foldl
      (fun acc permission => acc ++ [Interceptor.requirePerm permission]) withAuth
  let withUnitPerms :=
    opts.UnitPermissions.foldl
      (fun acc unitEntry =>
        unitEntry.2.foldl
          (fun acc2 permission =>
            acc2 ++ [Interceptor.requireUnitPerm unitEntry.1 permission]) acc)
      withPerms
  withUnitPerms

/-! Concrete sample values used by witnesses and counterexamples. -/

/-- A request with no headers at all. -/
def reqEmpty : Request := ⟨[]⟩

/-- A request carrying a standard bearer credential. -/
def reqBearer : Request := ⟨[("Authorization", "Bearer tok123")]⟩

/-- A next handler that ignores its arguments. -/
def nextZero : Ctx → Request → Except ConnectError Nat := fun _ _ => .ok 0

/-- A validator that rejects every token. -/
def validateFail : String → Except String Claims := fun _ => .error "bad signature"

/-- Sample claims with one organization permission and one unit. -/
def sampleClaims : Claims :=
  ⟨"sub1", "acme", ["editors"], ⟨"Jane", "Doe", "jane@acme.example"⟩, "",
   ⟨["content:read"], [("news", ["content:write"])]⟩⟩

/-- A validator that accepts every token with the sample claims. -/
def validateOk : String → Except String Claims := fun _ => .ok sampleClaims

/-! Helper lemmas. -/

/-- A successful association-list lookup finds a binding that is a member of
the list. -/
theorem assocLookup_mem {k : String} {v : α} {l : List (String × α)}
    (h : assocLookup k l = some v) : (k, v) ∈ l := by
  induction l with
  | nil => simp [assocLookup] at h
  | cons hd tl ih =>
      rcases hd with ⟨k0, v0⟩
      by_cases hk : k0 = k
      · subst hk
        simp [assocLookup] at h
        subst h
        exact List.mem_cons_self _ _
      · simp [assocLookup, hk] at h
        exact List.mem_cons_of_mem _ (ih h)

/-- The unit-scope check succeeds exactly when the unit has an entry in the
unit permission map containing the permission. -/
theorem hasPermissionsInUnit_iff {c : Claims} {u p : String} :
    c.HasPermissionsInUnit u p = true ↔
      ∃ ps, assocLookup u c.Permissions.Units = some ps ∧ p ∈ ps := by
  unfold Claims.HasPermissionsInUnit
  cases h : assocLookup u c.Permissions.Units with
  | none => simp
  | some ps => simp

/-- Scanning the whole unit permission map for a permission succeeds exactly
when some unit entry contains it. -/
theorem units_any_iff (c : Claims) (p : String) :
    (c.Permissions.Units.any fun e => c.HasPermissionsInUnit e.1 p) = true ↔
      ∃ u ps, assocLookup u c.Permissions.Units = some ps ∧ p ∈ ps := by
  rw [List.any_eq_true]
  constructor
  · rintro ⟨e, he, hpe⟩
    rcases hasPermissionsInUnit_iff.mp hpe with ⟨ps, hlk, hmem⟩
    exact ⟨e.1, ps, hlk, hmem⟩
  · rintro ⟨u, ps, hlk, hmem⟩
    exact ⟨(u, ps), assocLookup_mem hlk, hasPermissionsInUnit_iff.mpr ⟨ps, hlk, hmem⟩⟩

/-! Claim theorems. -/

/-- Claim C5: GetAuth on a context without any SetAuth returns the
no-authentication error with an empty AuthInfo; GetAuth after SetAuth with a
recorded failure returns exactly that failure and an empty AuthInfo; GetAuth
after SetAuth with a nil error returns exactly the stored AuthInfo and no
error; and SetAuth returns a new context, leaving its argument unchanged as
the parent of the result. -/
theorem getAuth_setAuth_spec :
    GetAuth emptyCtx = (emptyAuthInfo, some "no authentication information in context")
    ∧ (∀ (ctx : Ctx) (a : AuthInfo) (e : String),
        GetAuth (SetAuth ctx a (some e)) = (emptyAuthInfo, some e))
    ∧ (∀ (ctx : Ctx) (a : AuthInfo), GetAuth (SetAuth ctx a none) = (a, none))
    ∧ (∀ (ctx : Ctx) (a : AuthInfo) (e : Option String),
        SetAuth ctx a e ≠ ctx ∧ (SetAuth ctx a e).tail = ctx) := by
  refine ⟨rfl, fun ctx a e => rfl, fun ctx a => rfl, fun ctx a e => ⟨?_, rfl⟩⟩
  exact List.cons_ne_self _ _

/-- Witness for C5 at concrete inputs. -/
theorem getAuth_setAuth_spec_witness :
    GetAuth (SetAuth emptyCtx ⟨"tok123", sampleClaims⟩ none) =
      (⟨"tok123", sampleClaims⟩, none) :=
  getAuth_setAuth_spec.2.2.1 emptyCtx ⟨"tok123", sampleClaims⟩

/-- Claim C7: the unit-scoped check HasPermissionsInUnit is true exactly
when the permission is a member of the unit entry of the unit permission
map, and an absent unit yields false, never an error. -/
theorem hasPermissionsInUnit_spec (c : Claims) (u p : String) :
    (c.HasPermissionsInUnit u p = true ↔
      ∃ ps, assocLookup u c.Permissions.Units = some ps ∧ p ∈ ps)
    ∧ (assocLookup u c.Permissions.Units = none →
        c.HasPermissionsInUnit u p = false) := by
  refine ⟨hasPermissionsInUnit_iff, fun h => ?_⟩
  unfold Claims.HasPermissionsInUnit
  rw [h]

/-- Witness for C7 at concrete inputs. -/
theorem hasPermissionsInUnit_spec_witness :
    sampleClaims.HasPermissionsInUnit "news" "content:write" = true
    ∧ sampleClaims.HasPermissionsInUnit "sports" "content:write" = false :=
  ⟨(hasPermissionsInUnit_spec sampleClaims "news" "content:write").1.mpr
      ⟨["content:write"], by decide, by decide⟩,
   (hasPermissionsInUnit_spec sampleClaims "sports" "content:write").2 (by decide)⟩

/-- Claim C4: for a non-empty permission, the unscoped check
checkUserPermission is true exactly when the permission is granted at
organization scope or is a member of some unit entry of the unit permission
map, and an organization-scope grant alone always satisfies it. -/
theorem checkUserPermission_spec (c : Claims) (p : String) (hp : p ≠ "") :
    (checkUserPermission c p = true ↔
      (p ∈ c.Permissions.Org ∨
        ∃ u ps, assocLookup u c.Permissions.Units = some ps ∧ p ∈ ps))
    ∧ (p ∈ c.Permissions.Org → checkUserPermission c p = true) := by
  have hmain : checkUserPermission c p = true ↔
      (p ∈ c.Permissions.Org ∨
        ∃ u ps, assocLookup u c.Permissions.Units = some ps ∧ p ∈ ps) := by
    unfold checkUserPermission
    rw [if_neg hp]
    by_cases horg : c.HasPermissionsInOrganisation p = true
    · have hmem : p ∈ c.Permissions.Org := by
        simpa [Claims.HasPermissionsInOrganisation] using horg
      simp [horg, hmem]
    · have hmem : p ∉ c.Permissions.Org := by
        simpa [Claims.HasPermissionsInOrganisation] using horg
      simp only [horg, if_false, Bool.false_eq_true]
      rw [units_any_iff]
      simp [hmem]
  exact ⟨hmain, fun hmem => hmain.mpr (Or.inl hmem)⟩

/-- Witness for C4 at concrete inputs. -/
theorem checkUserPermission_spec_witness :
    checkUserPermission sampleClaims "content:read" = true
    ∧ checkUserPermission sampleClaims "content:write" = true :=
  ⟨(checkUserPermission_spec sampleClaims "content:read" (by decide)).2 (by decide),
   (checkUserPermission_spec sampleClaims "content:write" (by decide)).1.mpr
      (Or.inr ⟨"news", ["content:write"], by decide, by decide⟩)⟩

/-- Claim C9: checkUserPermission accepts the empty permission on every
Claims value, so AuthorizeWithDetails with an empty required permission
succeeds on every context carrying valid AuthInfo and returns the user
details built from the claims, regardless of the permission sets. -/
theorem authorizeWithDetails_empty_permission :
    (∀ c : Claims, checkUserPermission c "" = true)
    ∧ ∀ (ctx : Ctx) (a : AuthInfo), GetAuth ctx = (a, none) →
        AuthorizeWithDetails ctx "" =
          .ok { Organization := a.Claims.Org
                GivenName := a.Claims.Userinfo.GivenName
                FamilyName := a.Claims.Userinfo.FamilyName
                Email := a.Claims.Userinfo.Email
                UserID := a.Claims.Subject
                Permissions := a.Claims.Permissions.Org
                  ++ a.Claims.Permissions.Units.flatMap (fun e => e.2)
                Groups := a.Claims.Groups } := by
  constructor
  · intro c
    simp [checkUserPermission]
  · intro ctx a h
    unfold AuthorizeWithDetails
    rw [h]
    simp [checkUserPermission]

/-- Witness for C9 at concrete inputs. -/
theorem authorizeWithDetails_empty_permission_witness :
    AuthorizeWithDetails (SetAuth emptyCtx ⟨"tok123", sampleClaims⟩ none) "" =
      .ok ⟨"acme", "Jane", "Doe", "jane@acme.example", "sub1",
        ["content:read", "content:write"], ["editors"]⟩ :=
  authorizeWithDetails_empty_permission.2
    (SetAuth emptyCtx ⟨"tok123", sampleClaims⟩ none) ⟨"tok123", sampleClaims⟩ rfl

/-- Claim C3: a GetAccessToken call that finds a cached entry whose expiry
is strictly after now plus the 30-second buffer returns the cached access
token with no issuance call and an unchanged cache; otherwise it performs
exactly one issuance call and, on success, replaces the entry for the key
with the new token and expiry now plus its lifetime, returning the new
token. -/
theorem getAccessToken_cache_spec (f : String → Except String TokenResponse)
    (now : Int) (st : TokenRefresherState) (tok : String) :
    (∀ cached, assocLookup tok st.tokenCache = some cached →
        now + 30 < cached.expiresAt →
        GetAccessToken f now st tok = ((cached.accessToken, none), st, 0))
    ∧ ((¬ ∃ cached, assocLookup tok st.tokenCache = some cached
          ∧ now + 30 < cached.expiresAt) →
        ∀ resp, f tok = .ok resp →
          GetAccessToken f now st tok =
            ((resp.AccessToken, none),
             ⟨assocSet tok ⟨resp.AccessToken, now + resp.ExpiresIn⟩ st.tokenCache⟩,
             1)) := by
  constructor
  · intro cached hlk hfresh
    unfold GetAccessToken
    rw [hlk]
    simp [hfresh]
  · intro hmiss resp hf
    unfold GetAccessToken
    cases hlk : assocLookup tok st.tokenCache with
    | none => simp [hf]
    | some cached =>
        have hstale : ¬ now + 30 < cached.expiresAt := fun hlt =>
          hmiss ⟨cached, hlk, hlt⟩
        simp [hstale, hf]

/-- Witness for C3 at concrete inputs: a fresh cache hit returns the cached
token, and a miss issues and stores a new one. -/
theorem getAccessToken_cache_spec_witness :
    GetAccessToken (fun _ => .ok ⟨"minted", 60⟩) 0
        ⟨[("idtok", ⟨"cachedtok", 100⟩)]⟩ "idtok" =
      (("cachedtok", none), ⟨[("idtok", ⟨"cachedtok", 100⟩)]⟩, 0)
    ∧ GetAccessToken (fun _ => .ok ⟨"minted", 60⟩) 0 ⟨[]⟩ "idtok" =
      (("minted", none), ⟨[("idtok", ⟨"minted", 60⟩)]⟩, 1) :=
  ⟨(getAccessToken_cache_spec (fun _ => .ok ⟨"minted", 60⟩) 0
      ⟨[("idtok", ⟨"cachedtok", 100⟩)]⟩ "idtok").1 ⟨"cachedtok", 100⟩
      (by decide) (by decide),
   (getAccessToken_cache_spec (fun _ => .ok ⟨"minted", 60⟩) 0 ⟨[]⟩ "idtok").2
      (by rintro ⟨cached, hlk, hfresh⟩; simp [assocLookup] at hlk)
      ⟨"minted", 60⟩ rfl⟩

/-- Claim C10: when the issuance call inside GetAccessToken fails, the
function returns the empty token together with the issuance error, performs
exactly one issuance call, and leaves the cache exactly as it was before
the call. -/
theorem getAccessToken_issuance_failure (f : String → Except String TokenResponse)
    (now : Int) (st : TokenRefresherState) (tok : String) (e : String)
    (hf : f tok = .error e)
    (hmiss : ¬ ∃ cached, assocLookup tok st.tokenCache = some cached
        ∧ now + 30 < cached.expiresAt) :
    GetAccessToken f now st tok = (("", some e), st, 1) := by
  unfold GetAccessToken
  cases hlk : assocLookup tok st.tokenCache with
  | none => simp [hf]
  | some cached =>
      have hstale : ¬ now + 30 < cached.expiresAt := fun hlt =>
        hmiss ⟨cached, hlk, hlt⟩
      simp [hstale, hf]

/-- Witness for C10 at concrete inputs: the stale cached entry survives the
failed issuance untouched. -/
theorem getAccessToken_issuance_failure_witness :
    GetAccessToken (fun _ => .error "issuance down") 100
        ⟨[("idtok", ⟨"staletok", 50⟩)]⟩ "idtok" =
      (("", some "issuance down"), ⟨[("idtok", ⟨"staletok", 50⟩)]⟩, 1) :=
  getAccessToken_issuance_failure (fun _ => .error "issuance down") 100
    ⟨[("idtok", ⟨"staletok", 50⟩)]⟩ "idtok" "issuance down" rfl
    (by
      rintro ⟨cached, hlk, hfresh⟩
      have hc : cached = ⟨"staletok", 50⟩ := by
        simpa [assocLookup] using hlk.symm
      subst hc
      exact absurd hfresh (by decide))

/-- Claim C6: token extraction uses the Authorization header first, taking
its value with the bearer marker stripped when it is non-empty and carries
it; only otherwise does it fall back to the non-empty legacy x-imid-token
header; and when neither yields a token the authentication interceptor
rejects the call as Unauthenticated with the incoming context unchanged and
a result independent of the next handler, so the continuation is never
invoked. -/
theorem extractAccessToken_order_spec (req : Request) :
    ((headerGet req "Authorization" ≠ ""
        ∧ hasBearer (headerGet req "Authorization") = true) →
      extractAccessToken req = trimBearer (headerGet req "Authorization"))
    ∧ (¬ (headerGet req "Authorization" ≠ ""
        ∧ hasBearer (headerGet req "Authorization") = true) →
      (headerGet req "x-imid-token" ≠ "" →
          extractAccessToken req = headerGet req "x-imid-token")
      ∧ (headerGet req "x-imid-token" = "" → extractAccessToken req = ""))
    ∧ (extractAccessToken req = "" →
      ∀ (R : Type) (validate : String → Except String Claims)
        (next : Ctx → Request → Except ConnectError R) (ctx : Ctx),
        ConnectInterceptor validate next ctx req =
          ⟨.error ⟨.unauthenticated, "authentication required"⟩, ctx⟩) := by
  refine ⟨?_, ?_, ?_⟩
  · intro h
    unfold extractAccessToken
    rw [if_pos h]
  · intro h
    constructor
    · intro him
      unfold extractAccessToken
      rw [if_neg h]
      simp only [him, if_pos]
      rw [if_pos him]
    · intro him
      unfold extractAccessToken
      rw [if_neg h]
      simp only [him]
      rw [if_neg (by simp)]
  · intro h R validate next ctx
    unfold ConnectInterceptor
    rw [if_pos h]

/-- Witness for C6 at concrete inputs. -/
theorem extractAccessToken_order_spec_witness :
    extractAccessToken reqBearer = "tok123"
    ∧ extractAccessToken ⟨[("x-imid-token", "legacy1")]⟩ = "legacy1"
    ∧ ConnectInterceptor validateFail nextZero emptyCtx reqEmpty =
        ⟨.error ⟨.unauthenticated, "authentication required"⟩, emptyCtx⟩ :=
  ⟨(extractAccessToken_order_spec reqBearer).1 (by decide),
   ((extractAccessToken_order_spec ⟨[("x-imid-token", "legacy1")]⟩).2.1
      (by decide)).1 (by decide),
   (extractAccessToken_order_spec reqEmpty).2.2 rfl Nat validateFail nextZero emptyCtx⟩

/-- Claim C2, counterexample: on a request with no token, ConnectInterceptor
terminates the call with the incoming context unchanged, so no failure is
recorded in the Auth Context and GetAuth on the context at termination still
observes the absent value — refuting the claim that the interceptor
populates the Auth Context on a missing token. -/
theorem connectInterceptor_missing_token_no_population :
    (ConnectInterceptor validateFail nextZero emptyCtx reqEmpty).finalCtx = emptyCtx
    ∧ (GetAuth (ConnectInterceptor validateFail nextZero emptyCtx reqEmpty).finalCtx).2
        = some "no authentication information in context" :=
  ⟨rfl, rfl⟩

/-- Claim C2 amended: ConnectInterceptor populates the Auth Context only on
successful validation, storing the AuthInfo and invoking the next handler
with the new context; on a missing token or failed validation it rejects
with Unauthenticated without invoking the next handler and without touching
the context, so no later interceptor runs in those cases. -/
theorem connectInterceptor_population (validate : String → Except String Claims)
    (next : Ctx → Request → Except ConnectError R) (ctx : Ctx) (req : Request) :
    (extractAccessToken req = "" →
      ConnectInterceptor validate next ctx req =
        ⟨.error ⟨.unauthenticated, "authentication required"⟩, ctx⟩)
    ∧ (∀ e, extractAccessToken req ≠ "" →
      validate (extractAccessToken req) = .error e →
      ConnectInterceptor validate next ctx req =
        ⟨.error ⟨.unauthenticated, "invalid token"⟩, ctx⟩)
    ∧ (∀ c, extractAccessToken req ≠ "" →
      validate (extractAccessToken req) = .ok c →
      ConnectInterceptor validate next ctx req =
        ⟨next (SetAuth ctx ⟨extractAccessToken req, c⟩ none) req,
         SetAuth ctx ⟨extractAccessToken req, c⟩ none⟩) := by
  refine ⟨?_, ?_, ?_⟩
  · intro h
    unfold ConnectInterceptor
    rw [if_pos h]
  · intro e hne hv
    unfold ConnectInterceptor
    rw [if_neg hne, hv]
  · intro c hne hv
    unfold ConnectInterceptor
    rw [if_neg hne, hv]

/-- Witness for the amended C2 at concrete inputs: a bearer request under an
accepting validator reaches the next handler with the populated context. -/
theorem connectInterceptor_population_witness :
    ConnectInterceptor validateOk nextZero emptyCtx reqBearer =
      ⟨nextZero (SetAuth emptyCtx ⟨"tok123", sampleClaims⟩ none) reqBearer,
       SetAuth emptyCtx ⟨"tok123", sampleClaims⟩ none⟩ :=
  (connectInterceptor_population validateOk nextZero emptyCtx reqBearer).2.2
    sampleClaims (by decide) rfl

/-- Claim C1, counterexample: on a context that never saw an Authentication
Gate, GetAuth fails, yet the RequirePermission interceptor rejects the call
with a PermissionDenied-coded error, not an Unauthenticated one — refuting
the claim that such calls are never rejected with PermissionDenied. -/
theorem requirePermission_no_auth_counterexample :
    (GetAuth emptyCtx).2.isSome = true
    ∧ RequirePermission "doc:read" nextZero emptyCtx reqEmpty =
        .error ⟨.permissionDenied, "missing required permission: doc:read"⟩
    ∧ Code.permissionDenied ≠ Code.unauthenticated :=
  ⟨rfl, rfl, by decide⟩

/-- Claim C1 amended: whenever GetAuth fails on the context, a Permission
Gate built by RequirePermission rejects the call, but with the
PermissionDenied-coded missing-permission error, because it maps every
error of CheckPermissionConnect, including the authentication-required one,
to CodePermissionDenied. -/
theorem requirePermission_no_auth_rejects (ctx : Ctx) (p : String)
    (req : Request) (next : Ctx → Request → Except ConnectError R)
    (h : (GetAuth ctx).2.isSome = true) :
    RequirePermission p next ctx req =
      .error ⟨.permissionDenied, "missing required permission: " ++ p⟩ := by
  unfold RequirePermission CheckPermissionConnect
  rw [if_pos h]

/-- Witness for the amended C1 at concrete inputs. -/
theorem requirePermission_no_auth_rejects_witness :
    RequirePermission "doc:read" nextZero emptyCtx reqEmpty =
      .error ⟨.permissionDenied, "missing required permission: doc:read"⟩ :=
  requirePermission_no_auth_rejects emptyCtx "doc:read" reqEmpty nextZero rfl

/-- Appending one mapped element per iteration is the same as appending the
mapped list. -/
theorem foldl_append_map (f : α → β) (l : List α) (init : List β) :
    l.foldl (fun acc x => acc ++ [f x]) init = init ++ l.map f := by
  induction l generalizing init with
  | nil => simp
  | cons hd tl ih => simp [ih]

/-- The nested fold over the unit permission map appends one interceptor per
unit permission, in map order. -/
theorem foldl_append_units (l : List (String × List String))
    (init : List Interceptor) :
    l.foldl
        (fun acc e =>
          e.2.foldl (fun acc2 p => acc2 ++ [Interceptor.requireUnitPerm e.1 p]) acc)
        init
      = init ++ l.flatMap (fun e => e.2.map (Interceptor.requireUnitPerm e.1)) := by
  induction l generalizing init with
  | nil => simp
  | cons hd tl ih =>
      simp only [List.foldl_cons]
      rw [foldl_append_map, ih]
      simp

/-- Claim C8: for every options list, the interceptor chain built by
NewConnectHandler and passed to WithInterceptors is exactly the
authentication interceptor at position 0, followed by the RequirePermission
interceptors for all required permissions and then the RequireUnitPermission
interceptors for all unit permissions, so the Authentication Gate precedes
every Permission Gate. -/
theorem newConnectHandler_auth_first (options : List ConnectOption) :
    NewConnectHandler options =
      Interceptor.connectAuth ::
        ((options.foldl (fun acc opt => opt acc) ({ RequiredPermissions := [], UnitPermissions := [] } : ConnectOptions)).RequiredPermissions.map
            Interceptor.requirePerm
          ++ (options.foldl (fun acc opt => opt acc) ({ RequiredPermissions := [], UnitPermissions := [] } : ConnectOptions)).UnitPermissions.flatMap
              (fun e => e.2.map (Interceptor.requireUnitPerm e.1)))
    ∧ (NewConnectHandler options).head? = some Interceptor.connectAuth := by
  have hmain : NewConnectHandler options =
      Interceptor.connectAuth ::
        ((options.foldl (fun acc opt => opt acc) ({ RequiredPermissions := [], UnitPermissions := [] } : ConnectOptions)).RequiredPermissions.map
            Interceptor.requirePerm
          ++ (options.foldl (fun acc opt => opt acc) ({ RequiredPermissions := [], UnitPermissions := [] } : ConnectOptions)).UnitPermissions.flatMap
              (fun e => e.2.map (Interceptor.requireUnitPerm e.1))) := by
    simp only [NewConnectHandler]
    rw [foldl_append_units, foldl_append_map]
    simp
  refine ⟨hmain, ?_⟩
  rw [hmain]
  rfl

end Dindenault
